import Mathlib

/-!
Shallow embedding of `src/CardiacStrain/Logic/CardiacStrainLogic.py`
(`CardiacStrainLogic`), the strain-analysis core of the repository.

Numpy arrays are embedded as index functions (`Nat → Nat → ℚ` for a 2-D
array, etc.) together with explicit shape data where an operation needs it;
array values are exact rationals (the Python code computes in binary
floating point; all claims settled here concern index arithmetic, control
flow and exact algebraic identities, which are modelled over `ℚ`).
Fallible Python code (uncaught exceptions) is embedded with `Except`;
the mutable `self._cache` dict is threaded as explicit state.
-/

namespace Cardiac

/-! ### Query interface: `getStrainSeries` (lines 240-247)

`direction` selects one of the three matrices returned by `getStrain`
(`{"R": 0, "C": 1, "L": 2}`, applied to the tuple `(ier, iec, iel)`);
`zone` selects a row slice via `zones = {"G": (17,17), "B": (0,6),
"M": (7,13), "A": (13,17)}` and the slice `strain[a : b + 1]`;
`kind` containing `"Rate"` applies `np.gradient` to the mean curve. -/

inductive Direction
  | R
  | C
  | L
deriving DecidableEq

inductive Zone
  | G
  | B
  | M
  | A
deriving DecidableEq

inductive Kind
  | strain
  | rate
deriving DecidableEq

/-- A cached strain result: the three `(18, T+1)` matrices returned by
`getStrain` (radial `ier_accum`, circumferential `iec_accum`, longitudinal
`iel_accum`), embedded as index functions with the common column count. -/
structure StrainData where
  cols : ℕ
  matR : ℕ → ℕ → ℚ
  matC : ℕ → ℕ → ℚ
  matL : ℕ → ℕ → ℚ

/-- `directionIdxs = {"R": 0, "C": 1, "L": 2}` applied to `(ier, iec, iel)`. -/
def dirSelect (s : StrainData) : Direction → (ℕ → ℕ → ℚ)
  | .R => s.matR
  | .C => s.matC
  | .L => s.matL

/-- `zones = {"G": (17, 17), "B": (0, 6), "M": (7, 13), "A": (13, 17)}`
(line 242). -/
def zoneRange : Zone → ℕ × ℕ
  | .G => (17, 17)
  | .B => (0, 6)
  | .M => (7, 13)
  | .A => (13, 17)

/-- `np.gradient` of a 1-D array: one-sided differences at the two ends,
central differences in the interior.  (`np.gradient` raises for arrays of
fewer than 2 samples; the embedding is total and returns junk there, all
uses below have length at least 2.) -/
def npGradient (l : List ℚ) : List ℚ :=
  (List.range l.length).map fun i =>
    if i = 0 then l.getD 1 0 - l.getD 0 0
    else if i = l.length - 1 then l.getD i 0 - l.getD (i - 1) 0
    else (l.getD (i + 1) 0 - l.getD (i - 1) 0) / 2

/-- Lines 245-247: select the direction matrix, slice rows `[a : b + 1]`,
take the mean over the sliced rows (`.mean(axis=0)`), and for a rate query
take `np.gradient` of the resulting curve. -/
def getStrainSeriesOf (s : StrainData) (dir : Direction) (kind : Kind) (zone : Zone) :
    List ℚ :=
  let m := dirSelect s dir
  let a := (zoneRange zone).1
  let b := (zoneRange zone).2
  let curve := (List.range s.cols).map fun t =>
    (∑ i ∈ Finset.range (b + 1 - a), m (a + i) t) / ((b + 1 - a : ℕ) : ℚ)
  if kind = .rate then npGradient curve else curve

/-- Modelled from the spec: the zone→row-range mapping as the spec states
it — `global=[17,17], basal=[0,6), mid=[7,13), apical=[13,17)` — i.e. a
half-open range `[a, b)` for basal/mid/apical and the single row 17 for
global.  Used only to compare the spec's wording against the code. -/
def zoneRangeSpec : Zone → ℕ × ℕ
  | .G => (17, 18)
  | .B => (0, 6)
  | .M => (7, 13)
  | .A => (13, 17)

/-- Modelled from the spec: mean over the spec's half-open zone row range,
then optionally the finite-difference time derivative.  Comparison
definition for claim C2 only. -/
def getStrainSeriesSpec (s : StrainData) (dir : Direction) (kind : Kind) (zone : Zone) :
    List ℚ :=
  let m := dirSelect s dir
  let a := (zoneRangeSpec zone).1
  let b := (zoneRangeSpec zone).2
  let curve := (List.range s.cols).map fun t =>
    (∑ i ∈ Finset.range (b - a), m (a + i) t) / ((b - a : ℕ) : ℚ)
  if kind = .rate then npGradient curve else curve

/-! ### Temporal post-processing of `getStrain` (lines 221-238)

The spatial part of `getStrain` (lines 174-219) fills three raw
accumulation matrices of shape `(18, T+1)` (`T = len(motion)`); the
temporal stage then applies, to each matrix independently:
`convolve1d(·, np.ones(4)/4, axis=1)` (scipy, mode `reflect`), forcing of
column 0 to zero, and subtraction of the per-row ramp
`(row[T] / T) * arange(T+1)`.  Claims C6 and C10 hold for every raw
accumulation matrix, so the spatial stage is taken as an arbitrary input
`accum` here. -/

/-- Scipy boundary mode `reflect` for out-of-range indices of a length-`n`
axis: index `-1 ↦ 0`, `-2 ↦ 1`, `n ↦ n-1`, `n+1 ↦ n-2` (single reflection,
enough for the length-4 kernel used here whenever `n ≥ 2`). -/
def reflectIdx (n : ℕ) (i : ℤ) : ℕ :=
  if i < 0 then (-i - 1).toNat
  else if (n : ℤ) ≤ i then ((2 * n : ℤ) - 1 - i).toNat
  else i.toNat

/-- `scipy.ndimage.convolve1d(row, np.ones(4)/4)` on a length-`n` row:
for an even-length kernel scipy centres the window one to the left, so
`out[i] = (row[i-1] + row[i] + row[i+1] + row[i+2]) / 4` with reflected
boundary indices. -/
def smooth4 (n : ℕ) (row : ℕ → ℚ) : ℕ → ℚ := fun i =>
  (row (reflectIdx n ((i : ℤ) - 1)) + row (reflectIdx n (i : ℤ)) +
      row (reflectIdx n ((i : ℤ) + 1)) + row (reflectIdx n ((i : ℤ) + 2))) / 4

/-- Lines 221-224: smooth each row with the 4-sample moving average, then
force column 0 to zero. -/
def zeroedSmooth (T : ℕ) (accum : ℕ → ℕ → ℚ) : ℕ → ℕ → ℚ := fun r t =>
  if t = 0 then 0 else smooth4 (T + 1) (accum r) t

/-- Lines 226-236: the subtracted linear drift ramp
`(value at column T / len(motion)) * arange(T+1)`. -/
def driftRamp (T : ℕ) (accum : ℕ → ℕ → ℚ) : ℕ → ℕ → ℚ := fun r t =>
  zeroedSmooth T accum r T / (T : ℚ) * (t : ℚ)

/-- The full temporal post-processing of one direction matrix. -/
def getStrainMat (T : ℕ) (accum : ℕ → ℕ → ℚ) : ℕ → ℕ → ℚ := fun r t =>
  zeroedSmooth T accum r t - driftRamp T accum r t

/-- `getStrain` (lines 172-238) restricted to its temporal stage: the three
raw accumulation matrices are post-processed independently and returned as
`(ier_accum, iec_accum, iel_accum)` with `T + 1` time samples. -/
def getStrain (T : ℕ) (accumR accumC accumL : ℕ → ℕ → ℚ) : StrainData :=
  ⟨T + 1, getStrainMat T accumR, getStrainMat T accumC, getStrainMat T accumL⟩

/-! ### AHA classifier: slice bands and angular sectors (`_add16segments`,
lines 313-352) -/

/-- Python 3 `round` on an exact value: round half to even. -/
def pyRound (q : ℚ) : ℤ :=
  if q - ⌊q⌋ < 1 / 2 then ⌊q⌋
  else if (1 : ℚ) / 2 < q - ⌊q⌋ then ⌊q⌋ + 1
  else if ⌊q⌋ % 2 = 0 then ⌊q⌋ else ⌊q⌋ + 1

/-- `zBase = int(round(lvCenter.shape[0] * 0.35))` (line 321), for a
centroid list of `n` myocardium-bearing slices. -/
def zBase (n : ℕ) : ℕ := (pyRound ((n : ℚ) * (35 / 100))).toNat

/-- `zMid = int(round(lvCenter.shape[0] * 0.70))` (line 322). -/
def zMid (n : ℕ) : ℕ := (pyRound ((n : ℚ) * (70 / 100))).toNat

inductive Band
  | basal
  | mid
  | apical
deriving DecidableEq

/-- Lines 340-345: the branch selecting the segment scheme for the slice at
position `idz` of the `n`-entry centroid list.  Note the strict comparison
`zBase < idz` in the `elif`: the slice at `idz = zBase n` falls through to
the `else` branch. -/
def sliceBand (n idz : ℕ) : Band :=
  if idz < zBase n then .basal
  else if zBase n < idz ∧ idz < zMid n then .mid
  else .apical

/-- The `ahaSegs` range chosen for each band (`range(1,7)`, `range(7,13)`,
`range(13,17)`). -/
def bandSegs : Band → List ℕ
  | .basal => [1, 2, 3, 4, 5, 6]
  | .mid => [7, 8, 9, 10, 11, 12]
  | .apical => [13, 14, 15, 16]

/-- `anglesBaseMid` (lines 324-331), in degrees. -/
def anglesBaseMid : List (ℚ × ℚ) :=
  [(-120, -60), (-180, -120), (120, 180), (60, 120), (0, 60), (-60, 0)]

/-- `anglesAppex` (line 332), in degrees. -/
def anglesAppex : List (ℚ × ℚ) :=
  [(-135, -45), (135, 180), (45, 135), (-45, 45)]

/-- The `anglesLimits` table chosen for each band. -/
def bandAngles : Band → List (ℚ × ℚ)
  | .basal => anglesBaseMid
  | .mid => anglesBaseMid
  | .apical => anglesAppex

/-- Lines 347-352 for a single voxel with angle `ang`: iterate over
`zip(ahaSegs, anglesLimits)` in order; an assignment happens whenever
`angleLimits[0] <= ang <= angleLimits[1]` (both ends inclusive), a later
iteration overwrites an earlier one; the segment-14 wraparound
(`angleLimits[0] == 135`) additionally assigns on `-180 <= ang <= -135`
within the same iteration. -/
def assignSegment : List ℕ → List (ℚ × ℚ) → ℚ → ℕ → ℕ
  | s :: ss, lim :: ls, ang, cur =>
    let cur1 := if lim.1 ≤ ang ∧ ang ≤ lim.2 then s else cur
    let cur2 := if lim.1 = 135 ∧ (-180 ≤ ang ∧ ang ≤ -135) then s else cur1
    assignSegment ss ls ang cur2
  | _, _, _, cur => cur

/-- The AHA segment (1-16, or 0 when no range matches) assigned to a
myocardial voxel lying on the slice at centroid-list position `idz` (of
`n`) whose in-plane angle is `ang` degrees. -/
def voxelSegment (n idz : ℕ) (ang : ℚ) : ℕ :=
  assignSegment (bandSegs (sliceBand n idz)) (bandAngles (sliceBand n idz)) ang 0

/-! ### Apical cap: `_add17segment` (lines 354-369)

2-D binary images and 3-D volumes are index functions with explicit
bounds; out-of-bounds positions read as `false`. -/

/-- In-bounds test for a `h × w` slice. -/
def inB (h w y x : ℕ) : Bool := decide (y < h) && decide (x < w)

/-- Background (complement) pixels on the image border: the seeds of
scipy `binary_fill_holes`, whose hole detection dilates from outside the
image (`border_value=1`) through the complement. -/
def borderSeed (h w : ℕ) (img : ℕ → ℕ → Bool) (y x : ℕ) : Bool :=
  inB h w y x && !img y x &&
    (decide (y = 0) || decide (x = 0) || decide (y = h - 1) || decide (x = w - 1))

/-- One step of the border dilation through the complement, 4-connectivity
(`generate_binary_structure(2, 1)`, the scipy default). -/
def reachStep (h w : ℕ) (img : ℕ → ℕ → Bool) (R : ℕ → ℕ → Bool) : ℕ → ℕ → Bool :=
  fun y x =>
    inB h w y x && !img y x &&
      (R y x || R (y + 1) x || R y (x + 1) ||
        (decide (0 < y) && R (y - 1) x) || (decide (0 < x) && R y (x - 1)))

/-- Complement pixels connected to the image border.  Scipy iterates the
dilation to convergence; `h * w` steps suffice, since each productive step
adds a pixel. -/
def reachOutside (h w : ℕ) (img : ℕ → ℕ → Bool) : ℕ → ℕ → Bool :=
  Nat.iterate (reachStep h w img) (h * w) (borderSeed h w img)

/-- `binary_fill_holes` on one slice: the input together with every
in-bounds complement pixel not connected to the border. -/
def fillHoles (h w : ℕ) (img : ℕ → ℕ → Bool) : ℕ → ℕ → Bool := fun y x =>
  img y x || (inB h w y x && !reachOutside h w img y x)

/-- One slice of `Iendo` (lines 355-362): the filled mask minus the
myocardium mask, i.e. the enclosed cavity pixels.  (`epi - myo` on 0/1
values with `epi ≥ myo` pointwise, then tested `> 0`.) -/
def endoSlice (h w : ℕ) (slice : ℕ → ℕ → Bool) : ℕ → ℕ → Bool := fun y x =>
  fillHoles h w slice y x && !slice y x

/-- `np.any(..., axis=(1, 2))` on one slice. -/
def anyPix (h w : ℕ) (p : ℕ → ℕ → Bool) : Bool :=
  (List.range h).any fun y => (List.range w).any fun x => p y x

/-- `np.where(z)[0][0]`: the first slice index satisfying the predicate;
`none` models the `IndexError` Python raises when no slice does. -/
def firstSliceIdx (d h w : ℕ) (vol : ℕ → ℕ → ℕ → Bool) : Option ℕ :=
  (List.range d).find? fun z => anyPix h w (vol z)

/-- `_add17segment` (lines 354-369) on a `d × h × w` myocardium volume and
a current label volume: with `zmin_endo` the first cavity-bearing slice and
`zmin_myo` the first myocardium-bearing slice, every slice `z` with
`zmin_myo <= z < zmin_endo` is wholly replaced by
`17 * (Iendo[zmin_endo] > 0)`. -/
def add17segment (d h w : ℕ) (myo : ℕ → ℕ → ℕ → Bool) (ahaLv : ℕ → ℕ → ℕ → ℕ) :
    Option (ℕ → ℕ → ℕ → ℕ) :=
  match firstSliceIdx d h w (fun z => endoSlice h w (myo z)),
      firstSliceIdx d h w myo with
  | some zminEndo, some zminMyo =>
    some fun z y x =>
      if zminMyo ≤ z ∧ z < zminEndo then
        (if endoSlice h w (myo zminEndo) y x then 17 else 0)
      else ahaLv z y x
  | _, _ => none

/-! ### Through-plane orientation (`getLocalCoords` lines 142-146,
`_lvCenter` lines 299-300)

Both functions count right-ventricle voxels per slice of the labelled
volume (`(segArray == rvLabel).sum(axis=(1, 2))`), take `np.argmax`, and
compare it with `segArray.shape[0] // 2` — with opposite comparison
operators. -/

/-- Right-ventricle voxel count of slice `z` of a `d × h × w` labelled
volume. -/
def rvSliceCount (h w : ℕ) (seg : ℕ → ℕ → ℕ → ℤ) (rv : ℤ) (z : ℕ) : ℕ :=
  ((List.range h).map fun y =>
    ((List.range w).filter fun x => seg z y x = rv).length).sum

/-- Helper for `np.argmax`: first index of the maximum. -/
def argmaxAux : List ℕ → ℕ → ℕ → ℕ → ℕ
  | [], _, _, bi => bi
  | v :: vs, i, bv, bi =>
    if bv < v then argmaxAux vs (i + 1) v i else argmaxAux vs (i + 1) bv bi

/-- `np.argmax` of a list of counts: the first index attaining the maximum
(0 for the empty list). -/
def argmaxList : List ℕ → ℕ
  | [] => 0
  | v :: vs => argmaxAux vs 1 v 0

/-- The slice index with maximal right-ventricle cross-section. -/
def maxRvSlice (d h w : ℕ) (seg : ℕ → ℕ → ℕ → ℤ) (rv : ℤ) : ℕ :=
  argmaxList ((List.range d).map (rvSliceCount h w seg rv))

/-- Line 143 (`getLocalCoords`): `isInverted = maxRv < segArray.shape[0] // 2`. -/
def localCoordsInverted (d h w : ℕ) (seg : ℕ → ℕ → ℕ → ℤ) (rv : ℤ) : Bool :=
  decide (maxRvSlice d h w seg rv < d / 2)

/-- Line 300 (`_lvCenter`): `isInverted = maxRv > segArray.shape[0] // 2`. -/
def lvCenterInverted (d h w : ℕ) (seg : ℕ → ℕ → ℕ → ℤ) (rv : ℤ) : Bool :=
  decide (d / 2 < maxRvSlice d h w seg rv)

/-- Line 146: the longitudinal basis vector's through-plane component,
`-1 if isInverted else 1`. -/
def cLongSign (d h w : ℕ) (seg : ℕ → ℕ → ℕ → ℤ) (rv : ℤ) : ℤ :=
  if localCoordsInverted d h w seg rv then -1 else 1

/-- Line 311 (`_lvCenter`): the centroid list is reversed when the
orientation flag of `_lvCenter` is set. -/
def orderedCentroids (d h w : ℕ) (seg : ℕ → ℕ → ℕ → ℤ) (rv : ℤ)
    (cents : List (ℕ × ℚ × ℚ)) : List (ℕ × ℚ × ℚ) :=
  if lvCenterInverted d h w seg rv then cents.reverse else cents

/-! ### Computation cache and pipeline (`__init__` line 32,
`runStrainPipeline` lines 78-100, `getMotion` lines 102-130,
`getStrainSeries` lines 240-247, `getCalculatedResult` lines 249-251)

`self._cache` is one dict whose keys are the string `"model"` and the
tuples `("motion", seqId)`, `("aha", seqId)`, `("strain", seqId)`; it is
embedded as a function map from a key type with exactly those shapes.
The bodies of the pipeline stages (image preprocessing, the neural motion
estimator, the geometry builders) are external effects from the cache's
point of view and are supplied as an environment of fallible stage
functions; an `Except.error` models an uncaught Python exception
propagating out of the stage.  The state also carries two instrumentation
counters (model loads and per-frame motion-estimator invocations) that
count the side effects the claims speak about. -/

inductive PyErr
  | keyError
  | valueError
  | runtimeError
deriving DecidableEq

inductive EntryKind
  | motion
  | aha
  | strain
deriving DecidableEq

inductive CacheKey
  | model
  | entry (kind : EntryKind) (seqId : String)
deriving DecidableEq

/-- The values stored in `self._cache`: the loaded Keras model, a motion
list, the `(ahaModel, localCoords)` pair, or a strain result.  Model,
frame, and geometry payloads are abstracted to naturals — the claims about
the cache do not inspect them. -/
inductive Artifact
  | model (m : ℕ)
  | motionFrames (frames : List ℕ)
  | ahaLc (aha lc : ℕ)
  | strainCurve (s : StrainData)

/-- The mutable state: the cache dict plus instrumentation counters. -/
structure PState where
  cache : CacheKey → Option Artifact
  modelLoads : ℕ
  motionCalls : ℕ

/-- A fresh logic object: `self._cache = {}`. -/
def initState : PState := ⟨fun _ => none, 0, 0⟩

/-- `self._cache[k] = a`. -/
def setCache (st : PState) (k : CacheKey) (a : Artifact) : PState :=
  { st with cache := fun k2 => if k2 = k then some a else st.cache k2 }

/-- The external stages invoked by one pipeline run: the frame count, the
lazy model load, the per-frame motion-estimator call, and the three
deterministic geometry/strain computations.  Each may raise. -/
structure PipeEnv where
  T : ℕ
  loadModel : Except PyErr ℕ
  motionStep : ℕ → ℕ → Except PyErr ℕ
  localCoords : Except PyErr ℕ
  ahaModel : Except PyErr ℕ
  strainOf : List ℕ → ℕ → ℕ → Except PyErr StrainData

/-- The load attempt of lines 103-104: a successful
`keras.models.load_model` is stored under `"model"` and counted; a raising
load leaves the state unchanged. -/
def attemptLoad (env : PipeEnv) (st : PState) : Except PyErr ℕ × PState :=
  match env.loadModel with
  | .error e => (.error e, st)
  | .ok m =>
    (.ok m, { setCache st .model (.model m) with modelLoads := st.modelLoads + 1 })

/-- Lines 103-105: `if "model" not in self._cache: self._cache["model"] =
keras.models.load_model(...)`; the stored model is reused on a hit. -/
def loadModelStage (env : PipeEnv) (st : PState) : Except PyErr ℕ × PState :=
  match st.cache .model with
  | some (.model m) => (.ok m, st)
  | _ => attemptLoad env st

/-- Lines 122-129: the per-frame loop of `getMotion`.  Every motion-model
invocation is counted; a raising frame aborts the loop with the calls made
so far on record. -/
def runFrames (env : PipeEnv) (m : ℕ) :
    List ℕ → PState → Except PyErr (List ℕ) × PState
  | [], st => (.ok [], st)
  | t :: ts, st =>
    match env.motionStep m t with
    | .error e => (.error e, { st with motionCalls := st.motionCalls + 1 })
    | .ok f =>
      match runFrames env m ts { st with motionCalls := st.motionCalls + 1 } with
      | (.ok fs, st2) => (.ok (f :: fs), st2)
      | (.error e, st2) => (.error e, st2)

/-- `getMotion` (lines 102-130) as seen by the cache: lazy model load, then
one motion-estimator invocation per frame `t in range(T)`. -/
def getMotion (env : PipeEnv) (st : PState) : Except PyErr (List ℕ) × PState :=
  match loadModelStage env st with
  | (.error e, st1) => (.error e, st1)
  | (.ok m, st1) => runFrames env m (List.range env.T) st1

/-- The body of the cache-miss branch of `runStrainPipeline` (lines
86-99): run motion estimation, store the motion artifact, run the
geometry builders, store the `("aha", seqId)` artifact, compute strain and
store it.  An exception at any stage propagates, leaving the cache
mutations already made in place. -/
def computeStrainPipeline (env : PipeEnv) (seqId : String) (st : PState) :
    Except PyErr StrainData × PState :=
  match getMotion env st with
  | (.error e, st1) => (.error e, st1)
  | (.ok motion, st1) =>
    match env.localCoords with
    | .error e =>
      (.error e, setCache st1 (.entry .motion seqId) (.motionFrames motion))
    | .ok lc =>
      match env.ahaModel with
      | .error e =>
        (.error e, setCache st1 (.entry .motion seqId) (.motionFrames motion))
      | .ok aha =>
        match env.strainOf motion aha lc with
        | .error e =>
          (.error e,
            setCache (setCache st1 (.entry .motion seqId) (.motionFrames motion))
              (.entry .aha seqId) (.ahaLc aha lc))
        | .ok s =>
          (.ok s,
            setCache
              (setCache
                (setCache st1 (.entry .motion seqId) (.motionFrames motion))
                (.entry .aha seqId) (.ahaLc aha lc))
              (.entry .strain seqId) (.strainCurve s))

/-- `runStrainPipeline` (lines 78-100): compute on a cache miss for
`("strain", seqId)`, return the stored strain on a hit. -/
def runStrainPipeline (env : PipeEnv) (seqId : String) (st : PState) :
    Except PyErr StrainData × PState :=
  match st.cache (.entry .strain seqId) with
  | some (.strainCurve s) => (.ok s, st)
  | _ => computeStrainPipeline env seqId st

/-- A whole process lifetime: a sequence of pipeline invocations (possibly
for different sequences, with different stage environments) from a fresh
state. -/
def runAll : List (PipeEnv × String) → PState → PState
  | [], st => st
  | (env, sid) :: rest, st => runAll rest (runStrainPipeline env sid st).2

/-- Constructor test for `Except`. -/
def exceptIsOk {ε α : Type} : Except ε α → Bool
  | .ok _ => true
  | .error _ => false

/-- `getStrainSeries` (lines 240-247) including its cache access: line 244
is a bare `self._cache[("strain", seqId)]`, so a missing entry raises an
uncaught `KeyError`, modelled by `Except.error .keyError`. -/
def getStrainSeriesRun (st : PState) (seqId : String) (dir : Direction)
    (kind : Kind) (zone : Zone) : Except PyErr (List ℚ) :=
  match st.cache (.entry .strain seqId) with
  | some (.strainCurve s) => .ok (getStrainSeriesOf s dir kind zone)
  | _ => .error .keyError

/-- `getCalculatedResult` (lines 249-251): `self._cache.get((key, seqId),
None)` — an absent entry yields `None`, no exception. -/
def getCalculatedResult (st : PState) (kind : EntryKind) (seqId : String) :
    Option Artifact :=
  st.cache (.entry kind seqId)

/-! ### Concrete inputs used by counterexamples and witnesses -/

/-- A strain result with 2 time samples whose rows are constant in time
with value equal to the row index, in all three directions. -/
def sC2 : StrainData :=
  ⟨2, fun r _ => (r : ℚ), fun r _ => (r : ℚ), fun r _ => (r : ℚ)⟩

/-- A pipeline environment whose motion and geometry stages succeed and
whose strain computation raises. -/
def envC1 : PipeEnv :=
  ⟨1, .ok 0, fun _ _ => .ok 5, .ok 1, .ok 2, fun _ _ _ => .error .valueError⟩

/-- A pipeline environment in which every stage succeeds. -/
def envOk : PipeEnv :=
  ⟨1, .ok 0, fun _ t => .ok t, .ok 1, .ok 2, fun _ _ _ => .ok sC2⟩

/-- A two-slice 3 × 3 myocardium volume: slice 0 is a solid block (no
cavity), slice 1 is a ring with a one-pixel cavity at (1, 1). -/
def myoC8 : ℕ → ℕ → ℕ → Bool := fun z y x =>
  decide (z < 2) && decide (y < 3) && decide (x < 3) &&
    !(decide (z = 1) && decide (y = 1) && decide (x = 1))

/-- A 2 × 1 × 1 labelled volume containing no right-ventricle voxels. -/
def segC5 : ℕ → ℕ → ℕ → ℤ := fun _ _ _ => 0

/-! ## Theorems -/

/-! Shared evaluation lemmas for the AHA slice bands with a 6-entry
centroid list (used by the C3 and C4 results). -/

theorem zBase_six : zBase 6 = 2 := by
  unfold zBase pyRound
  norm_num
  rfl

theorem zMid_six : zMid 6 = 4 := by
  unfold zMid pyRound
  norm_num
  rfl

theorem sliceBand_six_zero : sliceBand 6 0 = Band.basal := by
  unfold sliceBand
  rw [zBase_six]
  norm_num

theorem sliceBand_six_three : sliceBand 6 3 = Band.mid := by
  unfold sliceBand
  rw [zBase_six, zMid_six]
  norm_num

theorem sliceBand_six_five : sliceBand 6 5 = Band.apical := by
  unfold sliceBand
  rw [zBase_six, zMid_six]
  norm_num

/-- Claim C6: for every frame count `T ≥ 1` and every raw accumulation
input, the StrainCurve produced by the strain computation has time sample 0
exactly equal to zero in every row of all three direction matrices, even
after the moving-average smoothing and the linear drift correction. -/
theorem strain_sample_zero (T : ℕ) (aR aC aL : ℕ → ℕ → ℚ) (_hT : 1 ≤ T) (r : ℕ) :
    (getStrain T aR aC aL).matR r 0 = 0 ∧ (getStrain T aR aC aL).matC r 0 = 0 ∧
      (getStrain T aR aC aL).matL r 0 = 0 := by
  refine ⟨?_, ?_, ?_⟩ <;>
    simp [getStrain, getStrainMat, zeroedSmooth, driftRamp]

/-- Witness for `strain_sample_zero` at `T = 1` and a constant raw input. -/
theorem strain_sample_zero_witness :
    (getStrain 1 (fun _ _ => 1) (fun _ _ => 2) (fun _ _ => 3)).matR 0 0 = 0 ∧
      (getStrain 1 (fun _ _ => 1) (fun _ _ => 2) (fun _ _ => 3)).matC 0 0 = 0 ∧
      (getStrain 1 (fun _ _ => 1) (fun _ _ => 2) (fun _ _ => 3)).matL 0 0 = 0 :=
  strain_sample_zero 1 (fun _ _ => 1) (fun _ _ => 2) (fun _ _ => 3) (by decide) 0

/-- Claim C10: for every frame count `T ≥ 1` and every raw accumulation
input, the subtracted drift ramp at the final time index `T` equals the
row's own (smoothed, zero-forced) endpoint value, so the returned
StrainCurve ends at exactly zero in every row of all three direction
matrices — regardless of any genuine end-of-cycle residual strain present
in the raw input. -/
theorem strain_final_sample_zero (T : ℕ) (aR aC aL : ℕ → ℕ → ℚ) (hT : 1 ≤ T)
    (r : ℕ) :
    driftRamp T aR r T = zeroedSmooth T aR r T ∧
      (getStrain T aR aC aL).matR r T = 0 ∧ (getStrain T aR aC aL).matC r T = 0 ∧
      (getStrain T aR aC aL).matL r T = 0 := by
  have hT0 : (T : ℚ) ≠ 0 := Nat.cast_ne_zero.mpr (by omega)
  have key : ∀ a : ℕ → ℕ → ℚ, driftRamp T a r T = zeroedSmooth T a r T := by
    intro a
    simp only [driftRamp]
    exact div_mul_cancel₀ _ hT0
  refine ⟨key aR, ?_, ?_, ?_⟩ <;>
    simp [getStrain, getStrainMat, key]

/-- Witness for `strain_final_sample_zero` at `T = 1` and a raw input with a
non-zero endpoint (a genuine residual strain that the ramp masks). -/
theorem strain_final_sample_zero_witness :
    driftRamp 1 (fun _ t => (t : ℚ)) 0 1 = zeroedSmooth 1 (fun _ t => (t : ℚ)) 0 1 ∧
      (getStrain 1 (fun _ t => (t : ℚ)) (fun _ t => (t : ℚ)) (fun _ t => (t : ℚ))).matR 0 1 = 0 ∧
      (getStrain 1 (fun _ t => (t : ℚ)) (fun _ t => (t : ℚ)) (fun _ t => (t : ℚ))).matC 0 1 = 0 ∧
      (getStrain 1 (fun _ t => (t : ℚ)) (fun _ t => (t : ℚ)) (fun _ t => (t : ℚ))).matL 0 1 = 0 :=
  strain_final_sample_zero 1 (fun _ t => (t : ℚ)) (fun _ t => (t : ℚ))
    (fun _ t => (t : ℚ)) (by decide) 0

/-- Claim C3 (evaluation of the code at the failing input): with a centroid
list of 6 myocardium-bearing slices the rounded boundaries are
`zBase = round(6 * 0.35) = 2` and `zMid = round(6 * 0.70) = 4`, so position
2 is the first slice of the mid band; yet the strict comparison
`zBase < idz` in the `elif` of `_add16segments` sends `idz = 2` to the
`else` branch, classifying it with the apical scheme (segments 13-16)
instead of the mid scheme (segments 7-12). -/
theorem sliceBand_boundary_bug :
    zBase 6 = 2 ∧ zMid 6 = 4 ∧ sliceBand 6 2 = Band.apical ∧
      bandSegs (sliceBand 6 2) = [13, 14, 15, 16] := by
  have hband : sliceBand 6 2 = Band.apical := by
    unfold sliceBand
    rw [zBase_six, zMid_six]
    norm_num
  exact ⟨zBase_six, zMid_six, hband, by rw [hband, bandSegs]⟩

/-- Counterexample to claim C4: at the exact boundary angles the code does
not follow the spec's inclusive-exclusive table — `-120°` on a basal (resp.
mid) slice is not segment 1 (resp. 7), `120°` is not segment 3 (resp. 9),
`0°` is not segment 5 (resp. 11), and `-135°` on an apical slice is not
segment 13.  (Here `n = 6` centroid slices; positions 0, 3, 5 are basal,
mid, apical respectively.) -/
theorem voxelSegment_boundary_cex :
    voxelSegment 6 0 (-120) ≠ 1 ∧ voxelSegment 6 3 (-120) ≠ 7 ∧
      voxelSegment 6 0 120 ≠ 3 ∧ voxelSegment 6 3 120 ≠ 9 ∧
      voxelSegment 6 0 0 ≠ 5 ∧ voxelSegment 6 3 0 ≠ 11 ∧
      voxelSegment 6 5 (-135) ≠ 13 := by
  refine ⟨?_, ?_, ?_, ?_, ?_, ?_, ?_⟩ <;>
    · unfold voxelSegment
      simp only [sliceBand_six_zero, sliceBand_six_three, sliceBand_six_five]
      norm_num [assignSegment, bandSegs, bandAngles, anglesBaseMid, anglesAppex]

/-- Claim C4, amended: every sector interval in `_add16segments` is closed
at both ends (`angleLimits[0] <= ang <= angleLimits[1]`), and a boundary
angle shared by two sectors goes to the sector assigned later in iteration
order: `-120° → 2/8`, `120° → 4/10`, `0° → 6/12`, and (via the seg-14
wraparound executed after the seg-13 assignment) `-135° → 14`.  Interior
angles follow the table (`-90° → 1/7/13`). -/
theorem voxelSegment_boundary_resolution :
    voxelSegment 6 0 (-120) = 2 ∧ voxelSegment 6 3 (-120) = 8 ∧
      voxelSegment 6 0 120 = 4 ∧ voxelSegment 6 3 120 = 10 ∧
      voxelSegment 6 0 0 = 6 ∧ voxelSegment 6 3 0 = 12 ∧
      voxelSegment 6 5 (-135) = 14 ∧
      voxelSegment 6 0 (-90) = 1 ∧ voxelSegment 6 3 (-90) = 7 ∧
      voxelSegment 6 5 (-90) = 13 := by
  refine ⟨?_, ?_, ?_, ?_, ?_, ?_, ?_, ?_, ?_, ?_⟩ <;>
    · unfold voxelSegment
      simp only [sliceBand_six_zero, sliceBand_six_three, sliceBand_six_five]
      norm_num [assignSegment, bandSegs, bandAngles, anglesBaseMid, anglesAppex]

/-- Counterexample to claim C9: with an empty cache (pipeline not yet run)
the strain-series query does not produce a handled "not yet available"
report — line 244 indexes the cache dict directly, so the call raises an
uncaught `KeyError` (modelled by `Except.error .keyError`). -/
theorem strain_series_keyerror_cex :
    getStrainSeriesRun initState "s" Direction.R Kind.strain Zone.G =
      Except.error PyErr.keyError := rfl

/-- Claim C9, amended: before the pipeline has completed for the active
sequence identity, `getCalculatedResult` returns an absent value, but
`getStrainSeries` raises an uncaught `KeyError` — the absence surfaces as
an unhandled exception, not as a handled "not yet available" report. -/
theorem query_before_compute (st : PState) (seqId : String) (dir : Direction)
    (kind : Kind) (zone : Zone) (h : st.cache (.entry .strain seqId) = none) :
    getStrainSeriesRun st seqId dir kind zone = Except.error PyErr.keyError ∧
      getCalculatedResult st .strain seqId = none := by
  unfold getStrainSeriesRun getCalculatedResult
  rw [h]
  exact ⟨rfl, rfl⟩

/-- Witness for `query_before_compute` on the empty cache. -/
theorem query_before_compute_witness :
    getStrainSeriesRun initState "s" Direction.C Kind.rate Zone.B =
        Except.error PyErr.keyError ∧
      getCalculatedResult initState .strain "s" = none :=
  query_before_compute initState "s" Direction.C Kind.rate Zone.B rfl

/-- Counterexample to claim C2: on a strain result whose radial rows are
constant in time with value equal to the row index, the code's basal series
(rows 0-6, because of the `+ 1` in the slice `strain[a : b + 1]`) differs
from the spec's basal series (rows 0-5, the half-open range `[0, 6)`). -/
theorem getStrainSeries_basal_row_range_cex :
    getStrainSeriesOf sC2 Direction.R Kind.strain Zone.B ≠
      getStrainSeriesSpec sC2 Direction.R Kind.strain Zone.B := by
  simp only [getStrainSeriesOf, getStrainSeriesSpec, zoneRange, zoneRangeSpec,
    dirSelect, sC2]
  norm_num [List.range_succ, Finset.sum_range_succ]
  rw [if_neg (by decide), if_neg (by decide)]
  norm_num

/-- Claim C2, amended: because of the `+ 1` in the slice
`strain[a : b + 1]` (line 246), the zone row ranges are inclusive at both
ends — global = row 17, basal = rows 0..6 (including mid-segment row 6),
mid = rows 7..13 (including apical-segment row 13), apical = rows 13..17
(including the global row 17) — and `getStrainSeries` returns the mean
over exactly those rows; for a rate query it returns the `np.gradient`
finite-difference time derivative of that mean curve. -/
theorem getStrainSeries_zone_rows (s : StrainData) (dir : Direction) (z : Zone) :
    getStrainSeriesOf s dir Kind.strain z =
      (List.range s.cols).map (fun t =>
        (∑ r ∈ Finset.Icc (zoneRange z).1 (zoneRange z).2, dirSelect s dir r t) /
          (((zoneRange z).2 - (zoneRange z).1 + 1 : ℕ) : ℚ)) ∧
      getStrainSeriesOf s dir Kind.rate z =
        npGradient (getStrainSeriesOf s dir Kind.strain z) := by
  constructor
  · cases z <;>
    · simp only [getStrainSeriesOf, zoneRange]
      rw [if_neg (by decide)]
      refine congrArg (fun f => List.map f (List.range s.cols)) (funext fun t => ?_)
      rw [← Nat.Ico_succ_right, Finset.sum_Ico_eq_sum_range]
  · rfl

/-! Helper lemmas for the through-plane orientation of an empty
right-ventricle mask (claim C5): all per-slice counts are zero, so
`np.argmax` returns the first index, 0. -/

theorem argmaxAux_all_zero (vs : List ℕ) :
    ∀ i bi, (∀ v ∈ vs, v = 0) → argmaxAux vs i 0 bi = bi := by
  induction vs with
  | nil => intro i bi _; rfl
  | cons v vs ih =>
    intro i bi h
    have hv : v = 0 := h v (List.mem_cons_self v vs)
    subst hv
    simp only [argmaxAux, lt_irrefl, if_false]
    exact ih _ _ fun u hu => h u (List.mem_cons_of_mem _ hu)

theorem argmaxList_all_zero (l : List ℕ) (h : ∀ v ∈ l, v = 0) :
    argmaxList l = 0 := by
  cases l with
  | nil => rfl
  | cons v vs =>
    have hv : v = 0 := h v (List.mem_cons_self v vs)
    subst hv
    exact argmaxAux_all_zero vs 1 0 fun u hu => h u (List.mem_cons_of_mem _ hu)

theorem rvSliceCount_zero (h w : ℕ) (seg : ℕ → ℕ → ℕ → ℤ) (rv : ℤ) (z : ℕ)
    (hz : ∀ y, y < h → ∀ x, x < w → seg z y x ≠ rv) :
    rvSliceCount h w seg rv z = 0 := by
  unfold rvSliceCount
  apply List.sum_eq_zero
  intro n hn
  simp only [List.mem_map] at hn
  obtain ⟨y, hy, rfl⟩ := hn
  rw [List.length_eq_zero, List.filter_eq_nil_iff]
  intro x hx
  simp only [decide_eq_true_eq]
  exact hz y (List.mem_range.mp hy) x (List.mem_range.mp hx)

theorem maxRvSlice_no_rv (d h w : ℕ) (seg : ℕ → ℕ → ℕ → ℤ) (rv : ℤ)
    (hno : ∀ z, z < d → ∀ y, y < h → ∀ x, x < w → seg z y x ≠ rv) :
    maxRvSlice d h w seg rv = 0 := by
  unfold maxRvSlice
  apply argmaxList_all_zero
  intro v hv
  simp only [List.mem_map] at hv
  obtain ⟨z, hz, rfl⟩ := hv
  exact rvSliceCount_zero h w seg rv z (hno z (List.mem_range.mp hz))

/-- Claim C5, amended: for a segmentation with no right-ventricle voxels,
`np.argmax` of the all-zero per-slice counts is 0, so the centroid-list
ordering of `_lvCenter` (which tests `maxRv > shape[0] // 2`) does default
to non-inverted — but the local frame builder `getLocalCoords` (which
tests `maxRv < shape[0] // 2`) defaults to *inverted* whenever the volume
has at least 2 slices, flipping the longitudinal basis sign to -1. -/
theorem orientation_no_rv_default (d h w : ℕ) (seg : ℕ → ℕ → ℕ → ℤ) (rv : ℤ)
    (hno : ∀ z, z < d → ∀ y, y < h → ∀ x, x < w → seg z y x ≠ rv) :
    lvCenterInverted d h w seg rv = false ∧
      localCoordsInverted d h w seg rv = decide (2 ≤ d) ∧
      (2 ≤ d → cLongSign d h w seg rv = -1) ∧
      (∀ cents, orderedCentroids d h w seg rv cents = cents) := by
  have hm := maxRvSlice_no_rv d h w seg rv hno
  have h1 : lvCenterInverted d h w seg rv = false := by
    unfold lvCenterInverted
    rw [hm]
    simp
  have h2 : localCoordsInverted d h w seg rv = decide (2 ≤ d) := by
    unfold localCoordsInverted
    rw [hm]
    exact decide_eq_decide.mpr (by omega)
  refine ⟨h1, h2, ?_, ?_⟩
  · intro hd
    unfold cLongSign
    rw [h2]
    simp [hd]
  · intro cents
    unfold orderedCentroids
    rw [h1]
    simp

/-- Witness for `orientation_no_rv_default` on a 2-slice volume with no
right-ventricle voxels. -/
theorem orientation_no_rv_default_witness :
    lvCenterInverted 2 1 1 segC5 1 = false ∧
      localCoordsInverted 2 1 1 segC5 1 = decide (2 ≤ 2) ∧
      (2 ≤ 2 → cLongSign 2 1 1 segC5 1 = -1) ∧
      (∀ cents, orderedCentroids 2 1 1 segC5 1 cents = cents) :=
  orientation_no_rv_default 2 1 1 segC5 1 (by decide)

/-- Counterexample to claim C5: `segC5` contains no right-ventricle voxels
(label 1), yet the orientation flag of `getLocalCoords` is `True`
(`argmax` of the all-zero counts is 0, and `0 < 2 // 2`), so the local
frame's longitudinal sign defaults to -1, the *inverted* convention — not
the non-inverted default the claim asserts for all downstream consumers. -/
theorem orientation_no_rv_cex :
    (∀ z, z < 2 → ∀ y, y < 1 → ∀ x, x < 1 → segC5 z y x ≠ 1) ∧
      localCoordsInverted 2 1 1 segC5 1 = true ∧
      cLongSign 2 1 1 segC5 1 = -1 := by
  refine ⟨by decide, by decide, by decide⟩

/-- Claim C8, amended: `_add17segment` relabels every slice `z` with
`zmin_myo <= z < zmin_endo` — a half-open range that *includes* the first
myocardium-bearing slice, rather than the slices strictly between it and
the first cavity-bearing slice — and on those slices assigns 17 exactly on
the in-plane footprint of the cavity mask of slice `zmin_endo` (all other
voxels of the slice are overwritten with 0, not labeled 17 in full);
slices outside the half-open range keep their previous labels. -/
theorem add17_update_rule (d h w : ℕ) (myo : ℕ → ℕ → ℕ → Bool)
    (aha : ℕ → ℕ → ℕ → ℕ) (zE zM : ℕ)
    (hE : firstSliceIdx d h w (fun z => endoSlice h w (myo z)) = some zE)
    (hM : firstSliceIdx d h w myo = some zM) :
    ∃ f, add17segment d h w myo aha = some f ∧
      (∀ z y x, zM ≤ z → z < zE →
        f z y x = if endoSlice h w (myo zE) y x then 17 else 0) ∧
      (∀ z y x, z < zM ∨ zE ≤ z → f z y x = aha z y x) := by
  have key : add17segment d h w myo aha = some (fun z y x =>
      if zM ≤ z ∧ z < zE then (if endoSlice h w (myo zE) y x then 17 else 0)
      else aha z y x) := by
    unfold add17segment
    rw [hE, hM]
  refine ⟨_, key, fun z y x h1 h2 => ?_, fun z y x hor => ?_⟩
  · show (if zM ≤ z ∧ z < zE then (if endoSlice h w (myo zE) y x then 17 else 0)
      else aha z y x) = _
    rw [if_pos ⟨h1, h2⟩]
  · show (if zM ≤ z ∧ z < zE then (if endoSlice h w (myo zE) y x then 17 else 0)
      else aha z y x) = _
    rw [if_neg (by omega)]

/-- Witness for `add17_update_rule` on the concrete volume `myoC8`
(first myocardium slice 0, first cavity slice 1). -/
theorem add17_update_rule_witness :
    firstSliceIdx 2 3 3 (fun z => endoSlice 3 3 (myoC8 z)) = some 1 ∧
      firstSliceIdx 2 3 3 myoC8 = some 0 ∧
      ∃ f, add17segment 2 3 3 myoC8 (fun _ _ _ => 0) = some f ∧
        (∀ z y x, 0 ≤ z → z < 1 →
          f z y x = if endoSlice 3 3 (myoC8 1) y x then 17 else 0) ∧
        (∀ z y x, z < 0 ∨ 1 ≤ z → f z y x = 0) :=
  ⟨by decide, by decide,
    add17_update_rule 2 3 3 myoC8 (fun _ _ _ => 0) 1 0 (by decide) (by decide)⟩

/-- Counterexample to claim C8: on `myoC8` the first myocardium-bearing
slice is 0 and the first cavity-bearing slice is 1, so no slice lies
strictly between them; yet slice 0 receives label 17 at the cavity
footprint (0, 1, 1) — a slice outside the strict range gets 17 — and the
same slice is not labeled 17 in full (voxel (0, 0, 0) is set to 0). -/
theorem add17_out_of_range_cex :
    firstSliceIdx 2 3 3 myoC8 = some 0 ∧
      firstSliceIdx 2 3 3 (fun z => endoSlice 3 3 (myoC8 z)) = some 1 ∧
      (add17segment 2 3 3 myoC8 (fun _ _ _ => 0)).map (fun f => f 0 1 1) =
        some 17 ∧
      (add17segment 2 3 3 myoC8 (fun _ _ _ => 0)).map (fun f => f 0 0 0) =
        some 0 := by
  refine ⟨by decide, by decide, by decide, by decide⟩

/-! Helper lemmas about the pipeline's cache state (claims C1 and C7). -/

theorem setCache_cache_ne (st : PState) (k : CacheKey) (a : Artifact)
    (k2 : CacheKey) (h : k2 ≠ k) : (setCache st k a).cache k2 = st.cache k2 := by
  simp [setCache, h]

theorem setCache_cache_self (st : PState) (k : CacheKey) (a : Artifact) :
    (setCache st k a).cache k = some a := by
  simp [setCache]

theorem runFrames_state (env : PipeEnv) (m : ℕ) (ts : List ℕ) :
    ∀ st : PState, ((runFrames env m ts st).2).cache = st.cache ∧
      ((runFrames env m ts st).2).modelLoads = st.modelLoads := by
  induction ts with
  | nil => intro st; exact ⟨rfl, rfl⟩
  | cons t ts ih =>
    intro st
    unfold runFrames
    cases env.motionStep m t with
    | error e => exact ⟨rfl, rfl⟩
    | ok f =>
      have ih1 := ih { st with motionCalls := st.motionCalls + 1 }
      cases hr : runFrames env m ts { st with motionCalls := st.motionCalls + 1 } with
      | mk q st2 =>
        rw [hr] at ih1
        cases q with
        | error e => exact ih1
        | ok fs => exact ih1

theorem attemptLoad_entry (env : PipeEnv) (st : PState) (k : EntryKind)
    (sid : String) :
    ((attemptLoad env st).2).cache (.entry k sid) = st.cache (.entry k sid) := by
  unfold attemptLoad
  cases env.loadModel with
  | error e => rfl
  | ok m => exact setCache_cache_ne st .model (.model m) (.entry k sid) (by simp)

theorem loadModelStage_entry (env : PipeEnv) (st : PState) (k : EntryKind)
    (sid : String) :
    ((loadModelStage env st).2).cache (.entry k sid) = st.cache (.entry k sid) := by
  unfold loadModelStage
  cases hc : st.cache .model with
  | none => exact attemptLoad_entry env st k sid
  | some a =>
    cases a with
    | model m => rfl
    | motionFrames f => exact attemptLoad_entry env st k sid
    | ahaLc a1 a2 => exact attemptLoad_entry env st k sid
    | strainCurve s => exact attemptLoad_entry env st k sid

theorem getMotion_entry (env : PipeEnv) (st : PState) (k : EntryKind)
    (sid : String) :
    ((getMotion env st).2).cache (.entry k sid) = st.cache (.entry k sid) := by
  unfold getMotion
  have hl := loadModelStage_entry env st k sid
  cases hlm : loadModelStage env st with
  | mk r st1 =>
    rw [hlm] at hl
    cases r with
    | error e => exact hl
    | ok m =>
      rw [(runFrames_state env m (List.range env.T) st1).1]
      exact hl

theorem compute_error_strain_entry (env : PipeEnv) (seqId : String)
    (st : PState) (e : PyErr)
    (herr : (computeStrainPipeline env seqId st).1 = .error e) :
    ((computeStrainPipeline env seqId st).2).cache (.entry .strain seqId) =
      st.cache (.entry .strain seqId) := by
  simp only [computeStrainPipeline] at herr ⊢
  have hm := getMotion_entry env st EntryKind.strain seqId
  cases hgm : getMotion env st with
  | mk mres st1 =>
    rw [hgm] at herr hm
    cases mres with
    | error e2 => exact hm
    | ok motion =>
      dsimp only at herr ⊢
      cases hlc : env.localCoords with
      | error e2 =>
        dsimp only
        rw [setCache_cache_ne _ _ _ _ (by simp)]
        exact hm
      | ok lc =>
        rw [hlc] at herr
        dsimp only at herr ⊢
        cases hah : env.ahaModel with
        | error e2 =>
          dsimp only
          rw [setCache_cache_ne _ _ _ _ (by simp)]
          exact hm
        | ok aha =>
          rw [hah] at herr
          dsimp only at herr ⊢
          cases hso : env.strainOf motion aha lc with
          | error e2 =>
            dsimp only
            rw [setCache_cache_ne _ _ _ _ (by simp),
              setCache_cache_ne _ _ _ _ (by simp)]
            exact hm
          | ok s =>
            rw [hso] at herr
            simp at herr

/-- Claim C1, amended: a failing run never creates the `("strain", seqId)`
cache entry — the marker the pipeline's presence check is keyed on — so a
later retry re-runs the full computation; however, artifacts stored before
the failing stage (the motion list, and the AHA/local-coordinates pair)
do remain in the cache (see `pipeline_error_partial_cache_cex`). -/
theorem pipeline_error_no_strain_entry (env : PipeEnv) (seqId : String)
    (st : PState) (e : PyErr)
    (h0 : st.cache (.entry .strain seqId) = none)
    (herr : (runStrainPipeline env seqId st).1 = .error e) :
    ((runStrainPipeline env seqId st).2).cache (.entry .strain seqId) = none := by
  have hrw : runStrainPipeline env seqId st = computeStrainPipeline env seqId st := by
    unfold runStrainPipeline
    rw [h0]
  rw [hrw] at herr ⊢
  rw [compute_error_strain_entry env seqId st e herr]
  exact h0

/-- Witness for `pipeline_error_no_strain_entry`: the environment `envC1`
(failing strain stage) on a fresh state. -/
theorem pipeline_error_no_strain_entry_witness :
    initState.cache (.entry .strain "s") = none ∧
      (runStrainPipeline envC1 "s" initState).1 = .error .valueError ∧
      ((runStrainPipeline envC1 "s" initState).2).cache (.entry .strain "s") =
        none :=
  ⟨rfl, rfl, pipeline_error_no_strain_entry envC1 "s" initState .valueError rfl rfl⟩

/-- Counterexample to claim C1: with `envC1` the motion and geometry
stages succeed and the strain computation raises; after the failure the
cache is *not* empty for the sequence identity — it still holds the motion
artifact (stored at line 88, before the failure) and the AHA artifact
(stored at line 93). -/
theorem pipeline_error_partial_cache_cex :
    (runStrainPipeline envC1 "s1" initState).1 = .error .valueError ∧
      (((runStrainPipeline envC1 "s1" initState).2).cache
          (.entry .motion "s1")).isSome = true ∧
      (((runStrainPipeline envC1 "s1" initState).2).cache
          (.entry .aha "s1")).isSome = true :=
  ⟨rfl, rfl, rfl⟩

theorem compute_ok_cached (env : PipeEnv) (seqId : String) (st : PState)
    (s : StrainData)
    (h : (computeStrainPipeline env seqId st).1 = .ok s) :
    ((computeStrainPipeline env seqId st).2).cache (.entry .strain seqId) =
      some (.strainCurve s) := by
  simp only [computeStrainPipeline] at h ⊢
  cases hgm : getMotion env st with
  | mk mres st1 =>
    rw [hgm] at h
    cases mres with
    | error e => simp at h
    | ok motion =>
      dsimp only at h ⊢
      cases hlc : env.localCoords with
      | error e => rw [hlc] at h; simp at h
      | ok lc =>
        rw [hlc] at h
        dsimp only at h ⊢
        cases hah : env.ahaModel with
        | error e => rw [hah] at h; simp at h
        | ok aha =>
          rw [hah] at h
          dsimp only at h ⊢
          cases hso : env.strainOf motion aha lc with
          | error e => rw [hso] at h; simp at h
          | ok s2 =>
            rw [hso] at h
            dsimp only
            obtain rfl : s2 = s := by simpa using h
            exact setCache_cache_self _ _ _

theorem runStrainPipeline_hit (env : PipeEnv) (seqId : String) (st : PState)
    (s : StrainData)
    (h : st.cache (.entry .strain seqId) = some (.strainCurve s)) :
    runStrainPipeline env seqId st = (.ok s, st) := by
  unfold runStrainPipeline
  rw [h]

theorem pipeline_ok_cached (env : PipeEnv) (seqId : String) (st : PState)
    (s : StrainData)
    (h : (runStrainPipeline env seqId st).1 = .ok s) :
    ((runStrainPipeline env seqId st).2).cache (.entry .strain seqId) =
      some (.strainCurve s) := by
  unfold runStrainPipeline at h ⊢
  cases hc : st.cache (.entry .strain seqId) with
  | none =>
    rw [hc] at h
    exact compute_ok_cached env seqId st s h
  | some a =>
    cases a with
    | model m =>
      rw [hc] at h
      exact compute_ok_cached env seqId st s h
    | motionFrames f =>
      rw [hc] at h
      exact compute_ok_cached env seqId st s h
    | ahaLc a1 a2 =>
      rw [hc] at h
      exact compute_ok_cached env seqId st s h
    | strainCurve s0 =>
      rw [hc] at h
      obtain rfl : s0 = s := by simpa using h
      exact hc

theorem pipeline_second_call_noop (env : PipeEnv) (seqId : String) (st : PState)
    (h : exceptIsOk (runStrainPipeline env seqId st).1 = true) :
    runStrainPipeline env seqId ((runStrainPipeline env seqId st).2) =
      runStrainPipeline env seqId st := by
  cases hr : (runStrainPipeline env seqId st).1 with
  | error e =>
    rw [hr] at h
    simp [exceptIsOk] at h
  | ok s =>
    have hc := pipeline_ok_cached env seqId st s hr
    rw [runStrainPipeline_hit env seqId _ s hc]
    exact Prod.ext_iff.mpr ⟨hr.symm, rfl⟩

/-- The at-most-once model-load invariant: either the model has never been
loaded, or it has been loaded exactly once and is stored under `"model"`. -/
def ModelInv (st : PState) : Prop :=
  st.modelLoads = 0 ∨
    (st.modelLoads = 1 ∧ ∃ m, st.cache .model = some (.model m))

theorem ModelInv_loads_le (st : PState) (h : ModelInv st) : st.modelLoads ≤ 1 := by
  rcases h with h | ⟨h, _⟩ <;> omega

theorem attemptLoad_inv (env : PipeEnv) (st : PState) (h0 : st.modelLoads = 0) :
    ModelInv ((attemptLoad env st).2) := by
  unfold attemptLoad
  cases env.loadModel with
  | error e => exact Or.inl h0
  | ok m =>
    refine Or.inr ⟨?_, m, setCache_cache_self st .model (.model m)⟩
    show st.modelLoads + 1 = 1
    omega

theorem loadModelStage_inv (env : PipeEnv) (st : PState) (h : ModelInv st) :
    ModelInv ((loadModelStage env st).2) := by
  unfold loadModelStage
  cases hc : st.cache .model with
  | none =>
    refine attemptLoad_inv env st ?_
    rcases h with h | ⟨_, m', hm⟩
    · exact h
    · rw [hc] at hm; simp at hm
  | some a =>
    cases a with
    | model m => exact h
    | motionFrames f =>
      refine attemptLoad_inv env st ?_
      rcases h with h | ⟨_, m', hm⟩
      · exact h
      · rw [hc] at hm; simp at hm
    | ahaLc a1 a2 =>
      refine attemptLoad_inv env st ?_
      rcases h with h | ⟨_, m', hm⟩
      · exact h
      · rw [hc] at hm; simp at hm
    | strainCurve s =>
      refine attemptLoad_inv env st ?_
      rcases h with h | ⟨_, m', hm⟩
      · exact h
      · rw [hc] at hm; simp at hm

theorem runFrames_inv (env : PipeEnv) (m : ℕ) (ts : List ℕ) (st : PState)
    (h : ModelInv st) : ModelInv ((runFrames env m ts st).2) := by
  have hs := runFrames_state env m ts st
  unfold ModelInv at h ⊢
  rw [hs.1, hs.2]
  exact h

theorem getMotion_inv (env : PipeEnv) (st : PState) (h : ModelInv st) :
    ModelInv ((getMotion env st).2) := by
  unfold getMotion
  have hl := loadModelStage_inv env st h
  cases hlm : loadModelStage env st with
  | mk r st1 =>
    rw [hlm] at hl
    cases r with
    | error e => exact hl
    | ok m => exact runFrames_inv env m (List.range env.T) st1 hl

theorem setCache_entry_inv (st : PState) (k : EntryKind) (sid : String)
    (a : Artifact) (h : ModelInv st) : ModelInv (setCache st (.entry k sid) a) := by
  unfold ModelInv at h ⊢
  rw [setCache_cache_ne st _ a .model (by simp)]
  exact h

theorem compute_inv (env : PipeEnv) (seqId : String) (st : PState)
    (h : ModelInv st) : ModelInv ((computeStrainPipeline env seqId st).2) := by
  simp only [computeStrainPipeline]
  have hg := getMotion_inv env st h
  cases hgm : getMotion env st with
  | mk mres st1 =>
    rw [hgm] at hg
    cases mres with
    | error e => exact hg
    | ok motion =>
      dsimp only
      cases env.localCoords with
      | error e =>
        dsimp only
        exact setCache_entry_inv st1 .motion seqId _ hg
      | ok lc =>
        dsimp only
        cases env.ahaModel with
        | error e =>
          dsimp only
          exact setCache_entry_inv st1 .motion seqId _ hg
        | ok aha =>
          dsimp only
          cases env.strainOf motion aha lc with
          | error e =>
            dsimp only
            exact setCache_entry_inv _ _ _ _ (setCache_entry_inv _ _ _ _ hg)
          | ok s =>
            dsimp only
            exact setCache_entry_inv _ _ _ _
              (setCache_entry_inv _ _ _ _ (setCache_entry_inv _ _ _ _ hg))

theorem runStrainPipeline_inv (env : PipeEnv) (seqId : String) (st : PState)
    (h : ModelInv st) : ModelInv ((runStrainPipeline env seqId st).2) := by
  unfold runStrainPipeline
  cases hc : st.cache (.entry .strain seqId) with
  | none => exact compute_inv env seqId st h
  | some a =>
    cases a with
    | model m => exact compute_inv env seqId st h
    | motionFrames f => exact compute_inv env seqId st h
    | ahaLc a1 a2 => exact compute_inv env seqId st h
    | strainCurve s => exact h

theorem runAll_inv (runs : List (PipeEnv × String)) :
    ∀ st, ModelInv st → ModelInv (runAll runs st) := by
  induction runs with
  | nil => intro st h; exact h
  | cons p rest ih =>
    intro st h
    obtain ⟨e1, s1⟩ := p
    exact ih _ (runStrainPipeline_inv e1 s1 st h)

/-- Claim C7: a second pipeline invocation for a sequence identity whose
first invocation succeeded performs no recomputation (the state, including
both instrumentation counters, is unchanged) and returns a result
identical to the first call's; and across any sequence of pipeline
invocations in one process lifetime, the motion-estimation model is
loaded at most once. -/
theorem pipeline_idempotent_single_load :
    (∀ (env : PipeEnv) (seqId : String) (st : PState),
        exceptIsOk (runStrainPipeline env seqId st).1 = true →
          runStrainPipeline env seqId ((runStrainPipeline env seqId st).2) =
            runStrainPipeline env seqId st) ∧
      ∀ runs : List (PipeEnv × String), (runAll runs initState).modelLoads ≤ 1 :=
  ⟨pipeline_second_call_noop, fun runs =>
    ModelInv_loads_le _ (runAll_inv runs initState (Or.inl rfl))⟩

/-- Witness for `pipeline_idempotent_single_load`: the all-succeeding
environment `envOk` on a fresh state, and a process running the pipeline
twice. -/
theorem pipeline_idempotent_single_load_witness :
    exceptIsOk (runStrainPipeline envOk "s" initState).1 = true ∧
      runStrainPipeline envOk "s" ((runStrainPipeline envOk "s" initState).2) =
        runStrainPipeline envOk "s" initState ∧
      (runAll [(envOk, "s"), (envOk, "s")] initState).modelLoads ≤ 1 :=
  ⟨rfl, pipeline_idempotent_single_load.1 envOk "s" initState rfl,
    pipeline_idempotent_single_load.2 [(envOk, "s"), (envOk, "s")]⟩

end Cardiac
